import Mathlib

/-!
Shallow embedding of the chartdb-client canvas synchronization engine
(src/unnamed/part_000) and the one-time IndexedDB→API migration routine
(src/unnamed/part_001).  External collaborators (the diagram filter
predicate, the field-type compatibility predicate, the getNode
lookup of the view layer, handle-id string constants imported from other modules)
are passed as explicit parameters, mirroring their role as opaque
imports in the source.
-/

/-- Field type record, mirroring the `{ id, name }` type objects carried by
table fields in the source. -/
structure FieldType where
  id : String
  name : String
deriving DecidableEq, Repr

/-- Table field: only the pieces the canvas code reads (`field.type`). -/
structure DBField where
  id : String
  type : FieldType
deriving DecidableEq, Repr

/-- Domain table entity (`DBTable`): id, optional schema, position, optional
width, field list, `isView` flag and optional `parentAreaId`. -/
structure DBTable where
  id : String
  schema : Option String
  x : Int
  y : Int
  width : Option Int
  fields : List DBField
  isView : Bool
  parentAreaId : Option String
deriving DecidableEq, Repr

/-- Domain area entity (`Area`): id, position, width, height. -/
structure Area where
  id : String
  x : Int
  y : Int
  width : Int
  height : Int
deriving DecidableEq, Repr

/-- Domain note entity (`Note`). -/
structure Note where
  id : String
  x : Int
  y : Int
  width : Int
  height : Int
  content : String
deriving DecidableEq, Repr

/-- Domain relationship entity, with the endpoint table/field ids the canvas
reads when regenerating edges. -/
structure Relationship where
  id : String
  sourceTableId : String
  targetTableId : String
  sourceFieldId : String
  targetFieldId : String
deriving DecidableEq, Repr

/-- Domain dependency entity: `tableId` is the depended-upon table,
`dependentTableId` the dependent one. -/
structure Dependency where
  id : String
  tableId : String
  dependentTableId : String
deriving DecidableEq, Repr

/-- Options record passed to `tableToTableNode`.  The external
`filterTable` collaborator (spec section 6: a pure predicate over the
table reference, the current filter and the default schema) is embedded
as a function of the id and schema of the table, with the filter and option
arguments already closed over, exactly as the call site fixes them. -/
structure TableToNodeOpts where
  filterTable : String → Option String → Bool
  filterLoading : Bool
  showDBViews : Bool
  forceShow : Bool
  isRelationshipCreatingTarget : Bool

/-- Data carried by a table node (`data` in `TableNodeType`). -/
structure TableNodeData where
  table : DBTable
  isOverlapping : Bool
  isRelationshipCreatingTarget : Bool
deriving DecidableEq, Repr

/-- Visual table node, the projection target of `tableToTableNode`. -/
structure TableNode where
  id : String
  position : Int × Int
  data : TableNodeData
  width : Int
  hidden : Bool
deriving DecidableEq, Repr

/-- Embedding of `tableToTableNode` (part_000 lines 159-207).
`minTableSize` stands for the imported `MIN_TABLE_SIZE` constant.
The hidden flag: `false` when `forceShow` is set, otherwise the table is
hidden when it fails the filter predicate, or the filter is loading, or
it is a view while views are not shown. -/
def tableToTableNode (minTableSize : Int) (table : DBTable)
    (o : TableToNodeOpts) : TableNode :=
  let position := (table.x, table.y)
  let hidden :=
    if o.forceShow then false
    else
      !o.filterTable table.id table.schema || o.filterLoading ||
        (!o.showDBViews && table.isView)
  { id := table.id
    position := position
    data :=
      { table := table
        isOverlapping := false
        isRelationshipCreatingTarget := o.isRelationshipCreatingTarget }
    width := table.width.getD minTableSize
    hidden := hidden }

/-- Edge kinds appearing in the canvas (`EdgeType` union in the source). -/
inductive EdgeKind where
  | relationshipEdge
  | dependencyEdge
  | tempFloatingEdge
deriving DecidableEq, Repr

/-- Visual edge. One record covers the three edge kinds of the source:
`dataRelationship`/`dataDependency` model the kind-specific `data` payload,
`dataHighlighted` the optional `data.highlighted` flag, and the optional
`hidden`/`zIndex` fields mirror the optional properties of the TS type
(`none` stands for an absent/undefined property). -/
structure Edge where
  id : String
  source : String
  target : String
  sourceHandle : Option String
  targetHandle : Option String
  etype : EdgeKind
  dataRelationship : Option Relationship
  dataDependency : Option Dependency
  dataHighlighted : Option Bool
  hidden : Option Bool
  selected : Bool
  animated : Bool
  zIndex : Option Int
deriving DecidableEq, Repr

/-- Handle-id string constants imported from the table-node modules
(their literal values live outside the sources of this file, so they are
passed in as data): left field handle, target handle marker, top and
bottom dependency source handles, and the dependency target marker. -/
structure HandleIds where
  leftHandle : String
  targetMark : String
  topSourceHandle : String
  bottomSourceHandle : String
  targetDep : String
deriving DecidableEq, Repr

/-- Lookup in the `prevEdgeStates` map (part_000 lines 426-431).  The JS
`Map` built from an entry array keeps the last entry for a duplicated
key, which is the last matching edge of the previous list; hence the
`find?` over the reversed list. -/
def prevEdgeState (prevEdges : List Edge) (i : String) :
    Option (Bool × Bool) :=
  (prevEdges.reverse.find? (fun e => e.id == i)).map
    (fun e => (e.selected, e.animated))

/-- Relationship half of the edge regeneration (part_000 lines 433-447):
builds one `relationship-edge` per relationship, threading the mutable
`targetIndexes` counter (post-incremented per `(targetTableId,
targetFieldId)` key) and pulling `selected`/`animated` from the previous
edge state, defaulting to `false`. -/
def relationshipEdgesAux (hs : HandleIds) (prev : List Edge) :
    List Relationship → (String → Nat) → List Edge
  | [], _ => []
  | r :: rest, targetIndexes =>
    let key := r.targetTableId ++ r.targetFieldId
    let idx := targetIndexes key
    let prevState := prevEdgeState prev r.id
    { id := r.id
      source := r.sourceTableId
      target := r.targetTableId
      sourceHandle := some (hs.leftHandle ++ r.sourceFieldId)
      targetHandle :=
        some (hs.targetMark ++ toString idx ++ "_" ++ r.targetFieldId)
      etype := EdgeKind.relationshipEdge
      dataRelationship := some r
      dataDependency := none
      dataHighlighted := none
      hidden := none
      selected := (prevState.map Prod.fst).getD false
      animated := (prevState.map Prod.snd).getD false
      zIndex := none } ::
      relationshipEdgesAux hs prev rest
        (fun k => if k = key then idx + 1 else targetIndexes k)

/-- Dependency half of the edge regeneration (part_000 lines 448-462):
one `dependency-edge` per dependency, hidden unless views are shown,
with the `targetDepIndexes` counter keyed by the depended-upon table. -/
def dependencyEdgesAux (hs : HandleIds) (showDBViews : Bool)
    (prev : List Edge) :
    List Dependency → (String → Nat) → List Edge
  | [], _ => []
  | dep :: rest, targetDepIndexes =>
    let key := dep.tableId
    let idx := targetDepIndexes key
    let prevState := prevEdgeState prev dep.id
    { id := dep.id
      source := dep.dependentTableId
      target := dep.tableId
      sourceHandle := some (hs.topSourceHandle ++ dep.dependentTableId)
      targetHandle :=
        some (hs.targetDep ++ toString idx ++ "_" ++ dep.tableId)
      etype := EdgeKind.dependencyEdge
      dataRelationship := none
      dataDependency := some dep
      dataHighlighted := none
      hidden := some (!showDBViews)
      selected := (prevState.map Prod.fst).getD false
      animated := (prevState.map Prod.snd).getD false
      zIndex := none } ::
      dependencyEdgesAux hs showDBViews prev rest
        (fun k => if k = key then idx + 1 else targetDepIndexes k)

/-- Embedding of the edge-regeneration effect (part_000 lines 405-465):
whenever the relationship or dependency collections change, the edge
list is rebuilt from scratch; both counter records start with every key
at zero, so starting from the constant-zero counter is equivalent. -/
def regenerateEdges (hs : HandleIds) (showDBViews : Bool)
    (relationships : List Relationship) (dependencies : List Dependency)
    (prevEdges : List Edge) : List Edge :=
  relationshipEdgesAux hs prevEdges relationships (fun _ => 0) ++
    dependencyEdgesAux hs showDBViews prevEdges dependencies (fun _ => 0)

/-- Raised z-order constant for highlighted edges (part_000 line 126). -/
def HIGHLIGHTED_EDGE_Z_INDEX : Int := 1

/-- Base z-order constant for non-highlighted edges (part_000 line 127). -/
def DEFAULT_EDGE_Z_INDEX : Int := 0

/-- Highlight condition of the highlight-propagation effect (part_000
lines 502-505): the own id of the edge is a selected relationship id, or one
of its endpoint table ids is a selected node id.  The source builds
`Set`s from the two id lists; membership is the same. -/
def shouldBeHighlighted (selectedRelationshipIds selectedTableIds :
    List String) (e : Edge) : Bool :=
  selectedRelationshipIds.contains e.id ||
    selectedTableIds.contains e.source ||
    selectedTableIds.contains e.target

/-- Skip condition of the highlight-propagation effect (part_000 lines
507-523): the edge already carries the computed highlighted flag
(reading an absent `data.highlighted` as false), animated flag (absent
read as false) and z-order (absent read as 0). -/
def highlightUnchanged (selectedRelationshipIds selectedTableIds :
    List String) (e : Edge) : Bool :=
  let sb := shouldBeHighlighted selectedRelationshipIds selectedTableIds e
  e.dataHighlighted.getD false == sb && e.animated == sb &&
    e.zIndex.getD 0 ==
      (if sb then HIGHLIGHTED_EDGE_Z_INDEX else DEFAULT_EDGE_Z_INDEX)

/-- Update branch of the highlight-propagation effect (part_000 lines
525-553).  The source narrows the union type and spreads the same three
fields in both the dependency and the relationship branch; the record
update is identical in each. -/
def applyHighlight (selectedRelationshipIds selectedTableIds :
    List String) (e : Edge) : Edge :=
  let sb := shouldBeHighlighted selectedRelationshipIds selectedTableIds e
  if e.etype = EdgeKind.dependencyEdge then
    { e with
      dataHighlighted := some sb
      animated := sb
      zIndex :=
        some (if sb then HIGHLIGHTED_EDGE_Z_INDEX else DEFAULT_EDGE_Z_INDEX) }
  else
    { e with
      dataHighlighted := some sb
      animated := sb
      zIndex :=
        some (if sb then HIGHLIGHTED_EDGE_Z_INDEX else DEFAULT_EDGE_Z_INDEX) }

/-- Embedding of the highlight-propagation effect (part_000 lines
491-558): drop the temporary floating edge, update every edge whose
highlight state differs from the computed one, and return the previous
array itself when no edge changed (`hasChanges` stays false). -/
def recomputeHighlights (selectedTableIds selectedRelationshipIds :
    List String) (prevEdges : List Edge) : List Edge :=
  let filtered :=
    prevEdges.filter (fun e => e.etype ≠ EdgeKind.tempFloatingEdge)
  let hasChanges :=
    filtered.any
      (fun e => !highlightUnchanged selectedRelationshipIds selectedTableIds e)
  let newEdges :=
    filtered.map
      (fun e =>
        if highlightUnchanged selectedRelationshipIds selectedTableIds e
        then e
        else applyHighlight selectedRelationshipIds selectedTableIds e)
  if hasChanges then newEdges else prevEdges

/-- Connect-gesture parameters (the `AddEdgeParams` the handler reads):
endpoint node ids and the optional source/target handle ids. -/
structure ConnectParams where
  source : String
  target : String
  sourceHandle : Option String
  targetHandle : Option String
deriving DecidableEq, Repr

/-- Observable outcome of one connect-gesture release: the relationship
creations (source table, target table, source field, target field), the
dependency creations (tableId, dependentTableId) and the number of
destructive toasts shown. -/
structure ConnectOutcome where
  createdRelationships : List (String × String × String × String)
  createdDependencies : List (String × String)
  warningsShown : Nat
deriving DecidableEq, Repr

/-- Boolean prefix test on character lists (executable string prefix). -/
def listIsPrefixOf : List Char → List Char → Bool
  | [], _ => true
  | _ :: _, [] => false
  | a :: as, b :: bs => a == b && listIsPrefixOf as bs

/-- Prefix test on strings, the semantics of the JS `startsWith`. -/
def strStarts (s p : String) : Bool := listIsPrefixOf p.data s.data

/-- Split of a character list at every underscore. -/
def splitOnUnderscoreAux : List Char → List Char → List (List Char)
  | [], acc => [acc.reverse]
  | c :: cs, acc =>
    if c == '_' then acc.reverse :: splitOnUnderscoreAux cs []
    else splitOnUnderscoreAux cs (c :: acc)

/-- Split of a string at every underscore character, the semantics of the
JS split on the underscore separator used by the handler. -/
def splitUnderscore (s : String) : List String :=
  (splitOnUnderscoreAux s.data []).map (fun cs => String.mk cs)

/-- Optional-chained `startsWith` test, `undefined` reading as false. -/
def optStartsWith (s : Option String) (p : String) : Bool :=
  (s.map (fun str => strStarts str p)).getD false

/-- Field-id extraction of part_000 lines 784-785, the optional chain of
split on underscore followed by pop with an empty-string fallback: the
last underscore-separated segment of the handle id, or the empty string
when the handle is absent. -/
def extractFieldId (h : Option String) : String :=
  (h.map (fun s => (splitUnderscore s).getLast?.getD "")).getD ""

/-- Dependency-handle test of part_000 lines 763-770: the source handle
starts with the top or bottom dependency-indicator marker. -/
def isDependencyConnect (hs : HandleIds) (p : ConnectParams) : Bool :=
  optStartsWith p.sourceHandle hs.topSourceHandle ||
    optStartsWith p.sourceHandle hs.bottomSourceHandle

/-- Embedding of `onConnectHandler` (part_000 lines 761-817).  The
`getField` collaborator resolves a (tableId, fieldId) pair to the field,
and `compatible` is the imported `areFieldTypesCompatible` predicate
with the database type closed over.  A dependency-handle connect creates
one Dependency unconditionally; otherwise the handler resolves both
fields, returns silently when either is missing, shows one warning and
creates nothing when the types are incompatible, and creates exactly one
Relationship when they are compatible. -/
def onConnectHandler (hs : HandleIds)
    (getField : String → String → Option DBField)
    (compatible : FieldType → FieldType → Bool)
    (p : ConnectParams) : ConnectOutcome :=
  if isDependencyConnect hs p then
    { createdRelationships := []
      createdDependencies := [(p.target, p.source)]
      warningsShown := 0 }
  else
    let sourceFieldId := extractFieldId p.sourceHandle
    let targetFieldId := extractFieldId p.targetHandle
    match getField p.source sourceFieldId, getField p.target targetFieldId with
    | some sourceField, some targetField =>
      if compatible sourceField.type targetField.type then
        { createdRelationships :=
            [(p.source, p.target, sourceFieldId, targetFieldId)]
          createdDependencies := []
          warningsShown := 0 }
      else
        { createdRelationships := []
          createdDependencies := []
          warningsShown := 1 }
    | _, _ =>
      { createdRelationships := []
        createdDependencies := []
        warningsShown := 0 }

/-- Node kinds of the canvas (`NodeType` union in the source). -/
inductive NodeKind where
  | table
  | area
  | note
  | tempCursor
  | createRelationship
deriving DecidableEq, Repr

/-- Rendered canvas node as the handlers and the persistence scheduler
see it through `getNode`: id, kind, current position, the measured
dimensions, the hidden flag and the kind-specific `data` payload. -/
structure CanvasNode where
  id : String
  ntype : NodeKind
  position : Int × Int
  measuredWidth : Option Int
  measuredHeight : Option Int
  hidden : Bool
  dataTable : Option DBTable
  dataArea : Option Area
deriving DecidableEq, Repr

/-- Interaction event on a node (`NodeChange`): position changes carry an
optional position and the dragging flag, dimension changes the resizing
flag; `other` stands for the remaining non-remove change kinds
(selection and so on), which the handlers pass through untouched. -/
inductive NodeChange where
  | position (id : String) (pos : Option (Int × Int)) (dragging : Bool)
  | dimensions (id : String) (resizing : Bool)
  | remove (id : String)
  | other (id : String)
deriving DecidableEq, Repr

/-- Change id accessor. -/
def NodeChange.cid : NodeChange → String
  | .position i _ _ => i
  | .dimensions i _ => i
  | .remove i => i
  | .other i => i

/-- Remove-kind test on node changes. -/
def NodeChange.isRemove : NodeChange → Bool
  | .remove _ => true
  | _ => false

/-- Interaction event on an edge (`EdgeChange`): only the remove kind is
inspected by the handler; everything else is passed through. -/
inductive EdgeChange where
  | remove (id : String)
  | other (id : String)
deriving DecidableEq, Repr

/-- Edge change id accessor. -/
def EdgeChange.cid : EdgeChange → String
  | .remove i => i
  | .other i => i

/-- Remove-kind test on edge changes. -/
def EdgeChange.isRemove : EdgeChange → Bool
  | .remove _ => true
  | _ => false

/-- Observable outcome of `onEdgesChangeHandler`: the relationship and
dependency ids whose removal is committed to the domain, and the change
list handed on to the view layer. -/
structure EdgesChangeOutcome where
  removedRelationships : List String
  removedDependencies : List String
  appliedChanges : List EdgeChange
deriving DecidableEq, Repr

/-- Embedding of `onEdgesChangeHandler` (part_000 lines 819-866): under
read-only mode every remove change is filtered out first; the surviving
remove changes are resolved through `getEdge` and split into
relationship and dependency removals, which are committed; the filtered
change list is applied to the view. -/
def onEdgesChangeHandler (readonly : Bool)
    (getEdge : String → Option Edge)
    (changes : List EdgeChange) : EdgesChangeOutcome :=
  let changesToApply :=
    if readonly then changes.filter (fun c => !c.isRemove) else changes
  let removeChanges := changesToApply.filter (fun c => c.isRemove)
  let edgesToRemove := removeChanges.filterMap (fun c => getEdge c.cid)
  let relationshipsToRemove :=
    (edgesToRemove.filter
        (fun e => e.etype = EdgeKind.relationshipEdge)).filterMap
      (fun e => e.dataRelationship.map (fun r => r.id))
  let dependenciesToRemove :=
    (edgesToRemove.filter
        (fun e => e.etype = EdgeKind.dependencyEdge)).filterMap
      (fun e => e.dataDependency.map (fun d => d.id))
  { removedRelationships := relationshipsToRemove
    removedDependencies := dependenciesToRemove
    appliedChanges := changesToApply }

/-- Synthetic child-table position changes emitted while an area is being
dragged (part_000 lines 1144-1186): for every position change whose node
is an area and which is still dragging, each table whose `parentAreaId`
is that area gets a visual position change shifted by the drag delta. -/
def areaDragAdditionalChanges (getNode : String → Option CanvasNode)
    (areas : List Area) (tables : List DBTable)
    (changes : List NodeChange) : List NodeChange :=
  let areaDragChanges :=
    changes.filter
      (fun c =>
        match c with
        | .position i _ dragging =>
          dragging &&
            ((getNode i).map (fun n => n.ntype == NodeKind.area)).getD false
        | _ => false)
  areaDragChanges.flatMap
    (fun c =>
      match c with
      | .position areaId (some pos) _ =>
        match areas.find? (fun a => a.id == areaId) with
        | some currentArea =>
          let deltaX := pos.1 - currentArea.x
          let deltaY := pos.2 - currentArea.y
          (tables.filter (fun t => t.parentAreaId == some areaId)).map
            (fun t =>
              NodeChange.position t.id
                (some (t.x + deltaX, t.y + deltaY)) true)
        | none => []
      | _ => [])

/-- Relevance test of `findRelevantNodesChanges` (part_000 lines
1067-1093): a settled position change with a defined position, a resize
in progress, or a removal, whose node exists and has the wanted kind. -/
def isRelevantChange (getNode : String → Option CanvasNode)
    (kind : NodeKind) (c : NodeChange) : Bool :=
  let shapeOk :=
    match c with
    | .position _ pos dragging => !dragging && pos.isSome
    | .dimensions _ resizing => resizing
    | .remove _ => true
    | .other _ => false
  shapeOk &&
    ((getNode c.cid).map (fun n => n.ntype == kind)).getD false

/-- Result triple of `findRelevantNodesChanges`. -/
structure RelevantChanges where
  positionChanges : List NodeChange
  removeChanges : List NodeChange
  sizeChanges : List NodeChange
deriving DecidableEq, Repr

/-- Embedding of `findRelevantNodesChanges` (part_000 lines 1067-1121):
the relevant changes of one node kind, split into settled position
changes, removals and in-progress resizes. -/
def findRelevantNodesChanges (getNode : String → Option CanvasNode)
    (changes : List NodeChange) (kind : NodeKind) : RelevantChanges :=
  let relevantChanges := changes.filter (isRelevantChange getNode kind)
  { positionChanges :=
      relevantChanges.filter
        (fun c =>
          match c with
          | .position _ pos dragging => !dragging && pos.isSome
          | _ => false)
    removeChanges := relevantChanges.filter (fun c => c.isRemove)
    sizeChanges :=
      relevantChanges.filter
        (fun c =>
          match c with
          | .dimensions _ resizing => resizing
          | _ => false) }

/-- Observable outcome of `onNodesChangeHandler`: the change list handed
to the view layer, the table ids removed from the domain, the area ids
whose member tables get `parentAreaId` cleared, the committed area and
note removals, whether the table-position commit ran, whether the table
removal batch is recorded to history, and the number of save-trigger
increments. -/
structure NodesChangeOutcome where
  changesToApply : List NodeChange
  removedTableIds : List String
  clearedParentAreaIds : List String
  areaRemovals : List String
  noteRemovals : List String
  tablePositionsCommitted : Bool
  removalUpdateHistory : Bool
  saveTriggers : Nat
deriving DecidableEq, Repr

/-- Embedding of `onNodesChangeHandler` (part_000 lines 1123-1356).
Under read-only mode remove changes are filtered out first.  Area drags
append synthetic child-table position changes.  Relevant changes are
split per node kind; settled table position or size changes (or child
movements of a settled area drag, resolved through the member-table
filter) commit positions and arm the save trigger, area or note changes
arm the save trigger, removals are committed immediately (table removals
recorded to history, removed areas clearing the `parentAreaId` of their
members), and the change list goes to the view layer. -/
def onNodesChangeHandler (readonly : Bool)
    (getNode : String → Option CanvasNode)
    (tables : List DBTable) (areas : List Area)
    (changes : List NodeChange) : NodesChangeOutcome :=
  let filteredChanges :=
    if readonly then changes.filter (fun c => !c.isRemove) else changes
  let changesToApply :=
    filteredChanges ++
      areaDragAdditionalChanges getNode areas tables filteredChanges
  let areaChanges := findRelevantNodesChanges getNode changesToApply .area
  let noteChanges := findRelevantNodesChanges getNode changesToApply .note
  let tableChanges := findRelevantNodesChanges getNode changesToApply .table
  let childTableMovements :=
    if areaChanges.positionChanges ≠ [] ∧ areaChanges.sizeChanges = [] then
      areaChanges.positionChanges.flatMap
        (fun c =>
          match c with
          | .position areaId (some _) _ =>
            (tables.filter (fun t => t.parentAreaId == some areaId)).map
              (fun t => t.id)
          | _ => [])
    else []
  let tablePositionsCommitted :=
    tableChanges.positionChanges ≠ [] ∨ tableChanges.sizeChanges ≠ [] ∨
      childTableMovements ≠ []
  let tableSave : Nat := if tablePositionsCommitted then 1 else 0
  let areaNoteSave : Nat :=
    if areaChanges.positionChanges ≠ [] ∨ areaChanges.sizeChanges ≠ [] ∨
        noteChanges.positionChanges ≠ [] ∨ noteChanges.sizeChanges ≠ []
    then 1 else 0
  { changesToApply := changesToApply
    removedTableIds := tableChanges.removeChanges.map (fun c => c.cid)
    clearedParentAreaIds := areaChanges.removeChanges.map (fun c => c.cid)
    areaRemovals := areaChanges.removeChanges.map (fun c => c.cid)
    noteRemovals := noteChanges.removeChanges.map (fun c => c.cid)
    tablePositionsCommitted := tablePositionsCommitted
    removalUpdateHistory := tableChanges.removeChanges.length > 0
    saveTriggers := tableSave + areaNoteSave }

/-- Domain collections captured by the save closure (the effect
dependencies of the debounced save, part_000 lines 1048-1065). -/
structure DomainState where
  tables : List DBTable
  areas : List Area
  notes : List Note
  relationships : List Relationship
  dependencies : List Dependency
  customTypes : List String
deriving DecidableEq, Repr

/-- Table position sync of the save callback (part_000 lines 961-974):
pull position from the rendered node when it exists, and the measured
width when it is truthy (a zero width is falsy in the source and leaves
the stored width untouched). -/
def syncTablePositions (getNode : String → Option CanvasNode)
    (tables : List DBTable) : List DBTable :=
  tables.map
    (fun t =>
      match getNode t.id with
      | some n =>
        { t with
          x := n.position.1
          y := n.position.2
          width :=
            match n.measuredWidth with
            | some w => if w = 0 then t.width else some w
            | none => t.width }
      | none => t)

/-- Area position sync of the save callback (part_000 lines 976-992):
width and height are pulled together only when both measured values are
truthy. -/
def syncAreaPositions (getNode : String → Option CanvasNode)
    (areas : List Area) : List Area :=
  areas.map
    (fun a =>
      match getNode a.id with
      | some n =>
        match n.measuredWidth, n.measuredHeight with
        | some w, some h =>
          if w = 0 ∨ h = 0 then { a with x := n.position.1, y := n.position.2 }
          else
            { a with
              x := n.position.1
              y := n.position.2
              width := w
              height := h }
        | _, _ => { a with x := n.position.1, y := n.position.2 }
      | none => a)

/-- Note position sync of the save callback (part_000 lines 994-1010),
same shape as the area sync. -/
def syncNotePositions (getNode : String → Option CanvasNode)
    (notes : List Note) : List Note :=
  notes.map
    (fun nt =>
      match getNode nt.id with
      | some n =>
        match n.measuredWidth, n.measuredHeight with
        | some w, some h =>
          if w = 0 ∨ h = 0 then
            { nt with x := n.position.1, y := n.position.2 }
          else
            { nt with
              x := n.position.1
              y := n.position.2
              width := w
              height := h }
        | _, _ => { nt with x := n.position.1, y := n.position.2 }
      | none => nt)

/-- Diagram content assembled by the save callback. -/
structure DiagramContent where
  tables : List DBTable
  relationships : List Relationship
  dependencies : List Dependency
  areas : List Area
  notes : List Note
  customTypes : List String
deriving DecidableEq, Repr

/-- Full save payload (`diagramToSave`, part_000 lines 1012-1027; the two
wall-clock timestamp strings are outside the pure model). -/
structure DiagramPayload where
  id : String
  name : String
  content : DiagramContent
deriving DecidableEq, Repr

/-- Payload assembly of the save callback (part_000 lines 957-1035): the
latest rendered position and size of every table, area and note is
pulled from the view layer into the captured domain snapshot, and the
whole diagram is written in one call. -/
def buildDiagramToSave (diagramId diagramName : String)
    (getNode : String → Option CanvasNode) (d : DomainState) :
    DiagramPayload :=
  { id := diagramId
    name := diagramName
    content :=
      { tables := syncTablePositions getNode d.tables
        relationships := d.relationships
        dependencies := d.dependencies
        areas := syncAreaPositions getNode d.areas
        notes := syncNotePositions getNode d.notes
        customTypes := d.customTypes } }

/-- Debounce delay of the save effect (part_000 line 1040). -/
def SAVE_DEBOUNCE_MS : Nat := 500

/-- State of the persistence scheduler: current time, the single pending
timer (deadline and the domain snapshot captured by the timeout closure)
and the writes issued so far (the captured snapshots, in order). -/
structure SchedulerState where
  now : Nat
  pending : Option (Nat × DomainState)
  writes : List DomainState
deriving DecidableEq, Repr

/-- Time advance: when the pending timer deadline is reached the timeout
fires, issuing one write of the captured snapshot and clearing the
timer. -/
def schedAdvance (s : SchedulerState) (dt : Nat) : SchedulerState :=
  let now := s.now + dt
  match s.pending with
  | some (deadline, snap) =>
    if deadline ≤ now then
      { now := now, pending := none, writes := s.writes ++ [snap] }
    else
      { s with now := now }
  | none => { s with now := now }

/-- Qualifying mutation arriving `dt` after the previous event (part_000
lines 933-1065): any still-armed timer may fire first if its deadline
passed, then the effect clears the existing timeout and arms a fresh
500 ms timeout whose closure captures the post-mutation domain state. -/
def schedMutate (s : SchedulerState) (dt : Nat) (snap : DomainState) :
    SchedulerState :=
  let s1 := schedAdvance s dt
  { s1 with pending := some (s1.now + SAVE_DEBOUNCE_MS, snap) }

/-- Process a sequence of qualifying mutations, each tagged with the time
elapsed since the previous event. -/
def schedRun (s : SchedulerState) (ms : List (Nat × DomainState)) :
    SchedulerState :=
  ms.foldl (fun acc m => schedMutate acc m.1 m.2) s

/-- Overlap graph as the canvas reads it: a mapping from table id to the
array of overlapping table ids. -/
abbrev OverlapGraph := List (String × List String)

/-- Embedding of `hasOverlappingTables` (part_000 lines 1491-1497): some
vertex of the overlap graph has a non-empty adjacency array. -/
def hasOverlappingTables (g : OverlapGraph) : Bool :=
  g.any (fun p => p.2.length > 0)

/-- Duration of the overlap highlight pulse (part_000 line 1518). -/
def PULSE_DURATION_MS : Nat := 600

/-- Cosmetic canvas state touched by the pulse: the overlap graph and the
transient highlight flag. -/
structure CanvasUIState where
  overlapGraph : OverlapGraph
  highlightOverlappingTables : Bool
deriving DecidableEq

/-- Immediate effect of `pulseOverlappingTables` (part_000 lines
1516-1519): set the highlight flag; the graph is not touched. -/
def pulseOverlappingTablesStart (s : CanvasUIState) : CanvasUIState :=
  { s with highlightOverlappingTables := true }

/-- Deferred effect of `pulseOverlappingTables`, fired 600 ms later by
the timeout: clear the highlight flag; the graph is not touched. -/
def pulseOverlappingTablesEnd (s : CanvasUIState) : CanvasUIState :=
  { s with highlightOverlappingTables := false }

/-- Axis-aligned bounding box. -/
structure Rect where
  x : Int
  y : Int
  w : Int
  h : Int
deriving DecidableEq, Repr

/-- Full containment of the inner box in the outer box. -/
def rectContains (outer inner : Rect) : Bool :=
  outer.x ≤ inner.x && outer.y ≤ inner.y &&
    inner.x + inner.w ≤ outer.x + outer.w &&
    inner.y + inner.h ≤ outer.y + outer.h

/-- Bounding box of an area. -/
def areaRect (a : Area) : Rect :=
  { x := a.x, y := a.y, w := a.width, h := a.height }

/-- Modelled from the spec: `updateTablesParentAreas` from the area-utils
module, which is not under src/.  Spec section 4.3: a table gets as
`parentAreaId` the id of the Area whose bounds fully contain the table
bounds, or null if none does.  The rendered table bounds (the view-layer
width and height) are abstracted as the `tableBounds` function. -/
def updateTablesParentAreas (tableBounds : DBTable → Rect)
    (tables : List DBTable) (areas : List Area) : List DBTable :=
  tables.map
    (fun t =>
      { t with
        parentAreaId :=
          (areas.find? (fun a => rectContains (areaRect a) (tableBounds t))).map
            (fun a => a.id) })

/-- Resolved parent of one table under the spec-modelled reassignment. -/
def resolveParentArea (tableBounds : DBTable → Rect) (areas : List Area)
    (t : DBTable) : Option String :=
  (areas.find? (fun a => rectContains (areaRect a) (tableBounds t))).map
    (fun a => a.id)

/-- Outcome of the parent-area check: the update batch (table id and new
parent) and the history flag of the `updateTablesState` call. -/
structure ParentAreaOutcome where
  updates : List (String × Option String)
  updateHistory : Bool
deriving DecidableEq, Repr

/-- Tables of the visible table nodes (part_000 lines 708-710). -/
def visibleTableData (nodes : List CanvasNode) : List DBTable :=
  nodes.filterMap
    (fun n =>
      if n.ntype == NodeKind.table && !n.hidden then n.dataTable else none)

/-- Areas of the visible area nodes (part_000 lines 711-713). -/
def visibleAreaData (nodes : List CanvasNode) : List Area :=
  nodes.filterMap
    (fun n =>
      if n.ntype == NodeKind.area && !n.hidden then n.dataArea else none)

/-- Embedding of the `checkParentAreas` effect body (part_000 lines
706-759): visible table and area nodes feed the spec-modelled
reassignment; a table enters the update batch only when its resolved
parent differs from the stored one (the truthiness guard of line 728
additionally requires one side to be non-null, which is implied by the
difference); the single resulting `updateTablesState` call carries
`updateHistory := false`. -/
def checkParentAreas (tableBounds : DBTable → Rect)
    (nodes : List CanvasNode) : ParentAreaOutcome :=
  let visibleTables := visibleTableData nodes
  let visibleAreas := visibleAreaData nodes
  let updatedTables :=
    updateTablesParentAreas tableBounds visibleTables visibleAreas
  let needsUpdate :=
    (updatedTables.zip visibleTables).filterMap
      (fun p =>
        if (p.1.parentAreaId.isSome || p.2.parentAreaId.isSome) &&
            p.1.parentAreaId ≠ p.2.parentAreaId
        then some (p.1.id, p.1.parentAreaId)
        else none)
  { updates := needsUpdate
    updateHistory := false }

/-- Pending scheduled tasks owned by the canvas component, one flag per
timer or handle the source can leave armed: the debounced diagram-save
timeout (`saveDiagramTimeoutRef`), the pointer-tracking animation-frame
handle (`rafIdRef`), the inline fit-view debounce of lines 393-403, the
overlap-graph rebuild debounce of lines 673-704, the parent-area check
debounce of lines 706-759, and the overlap update debounce of lines
927-930. -/
structure ScheduledTasks where
  saveTimer : Bool
  rafHandle : Bool
  fitViewDebounce : Bool
  overlapRebuildDebounce : Bool
  checkParentAreasDebounce : Bool
  overlapUpdateDebounce : Bool
deriving DecidableEq, Repr

/-- Unmount cleanup of the canvas component.  Exactly two effects return
a cleanup that cancels a scheduled task: the save effect clears
`saveDiagramTimeoutRef` (part_000 lines 1042-1047) and the RAF effect
cancels `rafIdRef` (lines 1569-1575).  The four debounce timers are
created inline or per render without any stored handle and no effect
cleanup cancels them, so they stay pending across unmount. -/
def unmountCleanup (t : ScheduledTasks) : ScheduledTasks :=
  { t with saveTimer := false, rafHandle := false }

/-- Migration result record (part_001 lines 7-12). -/
structure MigrationResult where
  success : Bool
  message : String
  diagramsCount : Nat
  errors : List String
deriving DecidableEq, Repr

/-- One stored diagram as the migration reads it. -/
structure MigDiagram where
  id : String
  name : String
deriving DecidableEq, Repr

/-- Environment of one migration run: the persisted migration flag (the
localStorage value under `migrated_to_api_v1`), the stored diagrams, the
per-diagram upload outcome of the API collaborator, whether a config row
exists, and the config upload outcome. -/
structure MigrationEnv where
  migrationFlag : Option String
  diagrams : List MigDiagram
  saveDiagram : MigDiagram → Except String Unit
  hasConfig : Bool
  updateConfig : Except String Unit

/-- Observable outcome of one migration run: the returned result, the
migration flag afterwards, the diagrams whose upload was attempted, and
the number of config upload attempts. -/
structure MigrationOutcome where
  result : MigrationResult
  newFlag : Option String
  uploadedDiagrams : List MigDiagram
  configUploads : Nat

/-- Embedding of `migrateIndexedDBToAPI` (part_001 lines 18-259).  When
the flag already reads true the run returns success with the message
`Already migrated` and touches nothing.  Otherwise every stored diagram
is uploaded, per-diagram failures are only recorded in the error list,
the config is uploaded likewise, and the flag is set to true
unconditionally before the result is assembled, so errors do not keep
the flag clear. -/
def migrateIndexedDBToAPI (env : MigrationEnv) : MigrationOutcome :=
  if env.migrationFlag = some "true" then
    { result :=
        { success := true
          message := "Already migrated"
          diagramsCount := 0
          errors := [] }
      newFlag := env.migrationFlag
      uploadedDiagrams := []
      configUploads := 0 }
  else if env.diagrams.isEmpty then
    { result :=
        { success := true
          message := "No diagrams to migrate"
          diagramsCount := 0
          errors := [] }
      newFlag := some "true"
      uploadedDiagrams := []
      configUploads := 0 }
  else
    let diagramErrors :=
      env.diagrams.filterMap
        (fun d =>
          match env.saveDiagram d with
          | Except.ok _ => none
          | Except.error msg =>
            some ("Failed to migrate diagram " ++ d.name ++ ": " ++ msg))
    let configErrors :=
      if env.hasConfig then
        match env.updateConfig with
        | Except.ok _ => []
        | Except.error msg => ["Failed to migrate config: " ++ msg]
      else []
    let errors := diagramErrors ++ configErrors
    { result :=
        { success := errors.isEmpty
          message :=
            if errors.isEmpty then
              "Successfully migrated " ++ toString env.diagrams.length ++
                " diagrams"
            else
              "Migrated " ++ toString env.diagrams.length ++
                " diagrams with " ++ toString errors.length ++ " errors"
          diagramsCount := env.diagrams.length
          errors := errors }
      newFlag := some "true"
      uploadedDiagrams := env.diagrams
      configUploads := if env.hasConfig then 1 else 0 }

/-- Embedding of `isMigrationComplete` (part_001 lines 264-266). -/
def isMigrationComplete (flag : Option String) : Bool :=
  flag == some "true"

/-- C1: for every table, the projected node is hidden iff the table is not
forced-visible and (it fails the filter predicate, or the filter is still
loading, or it is a view while views are hidden); with the force-show flag
set the node is never hidden. -/
theorem tableToTableNode_hidden_iff (minTableSize : Int) (table : DBTable)
    (o : TableToNodeOpts) :
    ((tableToTableNode minTableSize table o).hidden =
      (!o.forceShow &&
        (!o.filterTable table.id table.schema || o.filterLoading ||
          (!o.showDBViews && table.isView)))) ∧
    (tableToTableNode minTableSize table
        { o with forceShow := true }).hidden = false := by
  constructor
  · cases h : o.forceShow <;> simp [tableToTableNode, h]
  · simp [tableToTableNode]

/-- C7: the exposed has-any-overlap boolean is true iff at least one
vertex of the overlap graph has a non-empty adjacency set, and the
highlight pulse is transient: it sets the flag, the deferred timeout
clears it after the fixed duration, and neither step touches the
graph. -/
theorem hasOverlappingTables_iff_pulse_transient (g : OverlapGraph)
    (s : CanvasUIState) :
    (hasOverlappingTables g = true ↔ ∃ p ∈ g, p.2 ≠ []) ∧
    (pulseOverlappingTablesStart s).highlightOverlappingTables = true ∧
    (pulseOverlappingTablesStart s).overlapGraph = s.overlapGraph ∧
    (pulseOverlappingTablesEnd
        (pulseOverlappingTablesStart s)).highlightOverlappingTables =
      false ∧
    (pulseOverlappingTablesEnd
        (pulseOverlappingTablesStart s)).overlapGraph = s.overlapGraph := by
  refine ⟨?_, rfl, rfl, rfl, rfl⟩
  unfold hasOverlappingTables
  rw [List.any_eq_true]
  constructor
  · rintro ⟨p, hp, hlen⟩
    exact ⟨p, hp, by simpa [List.length_pos] using hlen⟩
  · rintro ⟨p, hp, hne⟩
    exact ⟨p, hp, by simpa [List.length_pos] using hne⟩

/-- C9 counterexample: starting from every task pending, the unmount
cleanup leaves the fit-view, overlap-rebuild, parent-area-check and
overlap-update debounce timers pending, so not every debounced or
scheduled task owned by the engine is cancelled on unmount. -/
theorem unmountCleanup_leaves_debounces_pending :
    (unmountCleanup
        { saveTimer := true, rafHandle := true, fitViewDebounce := true
          overlapRebuildDebounce := true, checkParentAreasDebounce := true
          overlapUpdateDebounce := true }).fitViewDebounce = true ∧
    (unmountCleanup
        { saveTimer := true, rafHandle := true, fitViewDebounce := true
          overlapRebuildDebounce := true, checkParentAreasDebounce := true
          overlapUpdateDebounce := true }).overlapRebuildDebounce = true ∧
    (unmountCleanup
        { saveTimer := true, rafHandle := true, fitViewDebounce := true
          overlapRebuildDebounce := true, checkParentAreasDebounce := true
          overlapUpdateDebounce := true }).checkParentAreasDebounce = true ∧
    (unmountCleanup
        { saveTimer := true, rafHandle := true, fitViewDebounce := true
          overlapRebuildDebounce := true, checkParentAreasDebounce := true
          overlapUpdateDebounce := true }).overlapUpdateDebounce = true := by
  exact ⟨rfl, rfl, rfl, rfl⟩

/-- C9 amended: on unmount exactly the persistence save timer and the
rate-limited pointer-tracking handle are cancelled; the four debounce
timers (fit-view, overlap rebuild, parent-area check, overlap update)
are left exactly as they were and may still fire after teardown. -/
theorem unmountCleanup_cancels_save_and_raf (t : ScheduledTasks) :
    (unmountCleanup t).saveTimer = false ∧
    (unmountCleanup t).rafHandle = false ∧
    (unmountCleanup t).fitViewDebounce = t.fitViewDebounce ∧
    (unmountCleanup t).overlapRebuildDebounce = t.overlapRebuildDebounce ∧
    (unmountCleanup t).checkParentAreasDebounce =
      t.checkParentAreasDebounce ∧
    (unmountCleanup t).overlapUpdateDebounce = t.overlapUpdateDebounce := by
  exact ⟨rfl, rfl, rfl, rfl, rfl, rfl⟩

/-- Already-migrated short circuit of `migrateIndexedDBToAPI` (part_001
lines 20-29). -/
theorem migrateIndexedDBToAPI_already (env : MigrationEnv)
    (h : env.migrationFlag = some "true") :
    migrateIndexedDBToAPI env =
      { result :=
          { success := true
            message := "Already migrated"
            diagramsCount := 0
            errors := [] }
        newFlag := env.migrationFlag
        uploadedDiagrams := []
        configUploads := 0 } := by
  unfold migrateIndexedDBToAPI
  rw [if_pos h]

/-- C10: a run that is not already migrated sets the persistent flag to
true regardless of recorded upload errors, and the subsequent run
returns success with the already-migrated message while attempting no
diagram or config upload. -/
theorem migrateIndexedDBToAPI_flag_idempotent (env : MigrationEnv)
    (h : env.migrationFlag ≠ some "true") :
    (migrateIndexedDBToAPI env).newFlag = some "true" ∧
    (migrateIndexedDBToAPI
        { env with
          migrationFlag :=
            (migrateIndexedDBToAPI env).newFlag }).result.success = true ∧
    (migrateIndexedDBToAPI
        { env with
          migrationFlag :=
            (migrateIndexedDBToAPI env).newFlag }).result.message =
      "Already migrated" ∧
    (migrateIndexedDBToAPI
        { env with
          migrationFlag :=
            (migrateIndexedDBToAPI env).newFlag }).uploadedDiagrams = [] ∧
    (migrateIndexedDBToAPI
        { env with
          migrationFlag :=
            (migrateIndexedDBToAPI env).newFlag }).configUploads = 0 := by
  have hflag : (migrateIndexedDBToAPI env).newFlag = some "true" := by
    unfold migrateIndexedDBToAPI
    rw [if_neg h]
    by_cases hd : env.diagrams.isEmpty <;> simp [hd]
  refine ⟨hflag, ?_, ?_, ?_, ?_⟩ <;>
    rw [hflag, migrateIndexedDBToAPI_already _ rfl]

/-- C10 witness: a concrete run with one diagram whose upload fails
still sets the flag, records the error, and the rerun is the silent
already-migrated success. -/
theorem migrateIndexedDBToAPI_witness :
    (migrateIndexedDBToAPI
        { migrationFlag := none
          diagrams := [{ id := "d1", name := "D1" }]
          saveDiagram := fun _ => Except.error "network down"
          hasConfig := false
          updateConfig := Except.ok () }).newFlag = some "true" ∧
    (migrateIndexedDBToAPI
        { migrationFlag := some "true"
          diagrams := [{ id := "d1", name := "D1" }]
          saveDiagram := fun _ => Except.error "network down"
          hasConfig := false
          updateConfig := Except.ok () }).uploadedDiagrams = [] ∧
    (migrateIndexedDBToAPI
        { migrationFlag := none
          diagrams := [{ id := "d1", name := "D1" }]
          saveDiagram := fun _ => Except.error "network down"
          hasConfig := false
          updateConfig := Except.ok () }).result.errors ≠ [] := by
  have h :=
    migrateIndexedDBToAPI_flag_idempotent
      { migrationFlag := none
        diagrams := [{ id := "d1", name := "D1" }]
        saveDiagram := fun _ => Except.error "network down"
        hasConfig := false
        updateConfig := Except.ok () }
      (by simp)
  refine ⟨h.1, ?_, by decide⟩
  have h2 := h.2.2.2.1
  simpa [h.1] using h2

/-- Concrete handle-id constants for the C4 instances: the field handle
markers do not collide with the dependency-indicator markers. -/
def c4Hs : HandleIds :=
  { leftHandle := "left_rel_"
    targetMark := "target_rel_"
    topSourceHandle := "top_dep_"
    bottomSourceHandle := "bottom_dep_"
    targetDep := "target_dep_" }

/-- Concrete connect params for the C4 instances: a field-to-field
connect gesture (no dependency marker on the source handle). -/
def c4Params : ConnectParams :=
  { source := "t1"
    target := "t2"
    sourceHandle := some "left_rel_f1"
    targetHandle := some "target_rel_0_f2" }

/-- Outcome of the concrete connect release whose endpoint fields cannot
be resolved (the field lookup returns nothing). -/
def c4MissingFieldOutcome : ConnectOutcome :=
  onConnectHandler c4Hs (fun _ _ => none) (fun _ _ => true) c4Params

/-- C4 counterexample: a connect release whose resolved endpoint field is
missing commits no domain mutation but also emits no user-facing
warning, contradicting the claim that every invalid release emits a
transient warning. -/
theorem onConnect_missing_field_silent :
    c4MissingFieldOutcome.createdRelationships = [] ∧
    c4MissingFieldOutcome.createdDependencies = [] ∧
    ¬0 < c4MissingFieldOutcome.warningsShown := by decide

/-- C4 amended: for a non-dependency connect release, a missing resolved
endpoint field yields no domain mutation and no warning (silent no-op);
resolved fields rejected by the type-compatibility predicate yield no
domain mutation and exactly one warning; approved fields yield exactly
one Relationship with the resolved source/target table and field ids and
no warning. -/
theorem onConnect_amended (hs : HandleIds)
    (getField : String → String → Option DBField)
    (compatible : FieldType → FieldType → Bool) (p : ConnectParams)
    (hdep : isDependencyConnect hs p = false) :
    ((getField p.source (extractFieldId p.sourceHandle) = none ∨
        getField p.target (extractFieldId p.targetHandle) = none) →
      onConnectHandler hs getField compatible p =
        { createdRelationships := []
          createdDependencies := []
          warningsShown := 0 }) ∧
    (∀ sf tf, getField p.source (extractFieldId p.sourceHandle) = some sf →
      getField p.target (extractFieldId p.targetHandle) = some tf →
        (compatible sf.type tf.type = false →
          onConnectHandler hs getField compatible p =
            { createdRelationships := []
              createdDependencies := []
              warningsShown := 1 }) ∧
        (compatible sf.type tf.type = true →
          onConnectHandler hs getField compatible p =
            { createdRelationships :=
                [(p.source, p.target, extractFieldId p.sourceHandle,
                  extractFieldId p.targetHandle)]
              createdDependencies := []
              warningsShown := 0 })) := by
  unfold onConnectHandler
  rw [hdep]
  simp only [Bool.false_eq_true, if_false]
  constructor
  · intro hmiss
    rcases hs1 : getField p.source (extractFieldId p.sourceHandle) with _ | sf <;>
      rcases ht1 : getField p.target (extractFieldId p.targetHandle) with _ | tf <;>
        simp_all
  · intro sf tf hs1 ht1
    rw [hs1, ht1]
    dsimp only
    constructor
    · intro hc
      rw [hc]
      simp
    · intro hc
      rw [hc]
      simp

/-- C4 witness: a concrete compatible connect creates exactly one
relationship with the resolved ids, via the amended theorem. -/
theorem onConnect_amended_witness :
    onConnectHandler c4Hs
        (fun t f =>
          if t = "t1" ∧ f = "f1" then
            some { id := "f1", type := { id := "int", name := "int" } }
          else if t = "t2" ∧ f = "f2" then
            some { id := "f2", type := { id := "int", name := "int" } }
          else none)
        (fun a b => a.name == b.name) c4Params =
      { createdRelationships := [("t1", "t2", "f1", "f2")]
        createdDependencies := []
        warningsShown := 0 } := by
  have h :=
    onConnect_amended c4Hs
      (fun t f =>
        if t = "t1" ∧ f = "f1" then
          some { id := "f1", type := { id := "int", name := "int" } }
        else if t = "t2" ∧ f = "f2" then
          some { id := "f2", type := { id := "int", name := "int" } }
        else none)
      (fun a b => a.name == b.name) c4Params (by decide)
    
  exact
    (h.2 { id := "f1", type := { id := "int", name := "int" } }
      { id := "f2", type := { id := "int", name := "int" } }
      (by decide) (by decide)).2 (by decide)

/-- Synthetic area-drag child changes are always position changes, never
removals. -/
theorem areaDrag_no_removes (getNode : String → Option CanvasNode)
    (areas : List Area) (tables : List DBTable)
    (changes : List NodeChange) :
    ∀ c ∈ areaDragAdditionalChanges getNode areas tables changes,
      c.isRemove = false := by
  intro c hc
  unfold areaDragAdditionalChanges at hc
  rw [List.mem_flatMap] at hc
  obtain ⟨a, _, hca⟩ := hc
  cases a with
  | position i pos dragging =>
    cases pos with
    | none => simp at hca
    | some p =>
      dsimp only at hca
      cases hfind : areas.find? (fun ar => ar.id == i) with
      | none =>
        rw [hfind] at hca
        simp at hca
      | some ar =>
        rw [hfind] at hca
        dsimp only at hca
        rw [List.mem_map] at hca
        obtain ⟨t, _, ht⟩ := hca
        rw [← ht]
        rfl
  | dimensions i resizing => simp at hca
  | remove i => simp at hca
  | other i => simp at hca

/-- A change list containing no removals yields no relevant removal
changes for any node kind. -/
theorem relevant_removes_nil (getNode : String → Option CanvasNode)
    (kind : NodeKind) (l : List NodeChange)
    (h : ∀ c ∈ l, c.isRemove = false) :
    (findRelevantNodesChanges getNode l kind).removeChanges = [] := by
  unfold findRelevantNodesChanges
  dsimp only
  rw [List.filter_eq_nil_iff]
  intro c hc
  rw [List.mem_filter] at hc
  have hcr := h c hc.1
  simp [hcr]

/-- C5: with read-only mode active, both interaction handlers drop all
remove events before deriving domain mutations, so no table, area, note,
relationship or dependency removal is committed and no parent-area
clearing happens, while every non-remove event is processed unchanged
(the node handler appends only the synthetic area-drag child position
changes). -/
theorem readonly_blocks_removals
    (getNode : String → Option CanvasNode) (getEdge : String → Option Edge)
    (tables : List DBTable) (areas : List Area)
    (nodeChanges : List NodeChange) (edgeChanges : List EdgeChange) :
    (onNodesChangeHandler true getNode tables areas
        nodeChanges).removedTableIds = [] ∧
    (onNodesChangeHandler true getNode tables areas
        nodeChanges).areaRemovals = [] ∧
    (onNodesChangeHandler true getNode tables areas
        nodeChanges).noteRemovals = [] ∧
    (onNodesChangeHandler true getNode tables areas
        nodeChanges).clearedParentAreaIds = [] ∧
    (onEdgesChangeHandler true getEdge
        edgeChanges).removedRelationships = [] ∧
    (onEdgesChangeHandler true getEdge
        edgeChanges).removedDependencies = [] ∧
    (onNodesChangeHandler true getNode tables areas
        nodeChanges).changesToApply =
      nodeChanges.filter (fun c => !c.isRemove) ++
        areaDragAdditionalChanges getNode areas tables
          (nodeChanges.filter (fun c => !c.isRemove)) ∧
    (onEdgesChangeHandler true getEdge edgeChanges).appliedChanges =
      edgeChanges.filter (fun c => !c.isRemove) := by
  have hfilterN :
      ∀ c ∈ nodeChanges.filter (fun c => !c.isRemove),
        c.isRemove = false := by
    intro c hc
    rw [List.mem_filter] at hc
    simpa using hc.2
  have happ :
      ∀ c ∈ nodeChanges.filter (fun c => !c.isRemove) ++
          areaDragAdditionalChanges getNode areas tables
            (nodeChanges.filter (fun c => !c.isRemove)),
        c.isRemove = false := by
    intro c hc
    rcases List.mem_append.mp hc with h | h
    · exact hfilterN c h
    · exact areaDrag_no_removes getNode areas tables _ c h
  have hrel :
      ∀ kind,
        (findRelevantNodesChanges getNode
            (nodeChanges.filter (fun c => !c.isRemove) ++
              areaDragAdditionalChanges getNode areas tables
                (nodeChanges.filter (fun c => !c.isRemove)))
            kind).removeChanges = [] :=
    fun kind => relevant_removes_nil getNode kind _ happ
  have hE :
      (edgeChanges.filter (fun c => !c.isRemove)).filter
          (fun c => c.isRemove) = [] := by
    rw [List.filter_eq_nil_iff]
    intro c hc
    rw [List.mem_filter] at hc
    simp only [Bool.not_eq_true]
    simpa using hc.2
  refine ⟨?_, ?_, ?_, ?_, ?_, ?_, rfl, rfl⟩
  · show (findRelevantNodesChanges getNode
        (nodeChanges.filter (fun c => !c.isRemove) ++
          areaDragAdditionalChanges getNode areas tables
            (nodeChanges.filter (fun c => !c.isRemove)))
        NodeKind.table).removeChanges.map NodeChange.cid = []
    rw [hrel NodeKind.table]
    rfl
  · show (findRelevantNodesChanges getNode
        (nodeChanges.filter (fun c => !c.isRemove) ++
          areaDragAdditionalChanges getNode areas tables
            (nodeChanges.filter (fun c => !c.isRemove)))
        NodeKind.area).removeChanges.map NodeChange.cid = []
    rw [hrel NodeKind.area]
    rfl
  · show (findRelevantNodesChanges getNode
        (nodeChanges.filter (fun c => !c.isRemove) ++
          areaDragAdditionalChanges getNode areas tables
            (nodeChanges.filter (fun c => !c.isRemove)))
        NodeKind.note).removeChanges.map NodeChange.cid = []
    rw [hrel NodeKind.note]
    rfl
  · show (findRelevantNodesChanges getNode
        (nodeChanges.filter (fun c => !c.isRemove) ++
          areaDragAdditionalChanges getNode areas tables
            (nodeChanges.filter (fun c => !c.isRemove)))
        NodeKind.area).removeChanges.map NodeChange.cid = []
    rw [hrel NodeKind.area]
    rfl
  · show ((((edgeChanges.filter (fun c => !c.isRemove)).filter
        (fun c => c.isRemove)).filterMap
          (fun c => getEdge c.cid)).filter
            (fun e => e.etype = EdgeKind.relationshipEdge)).filterMap
              (fun e => e.dataRelationship.map (fun r => r.id)) = []
    rw [hE]
    rfl
  · show ((((edgeChanges.filter (fun c => !c.isRemove)).filter
        (fun c => c.isRemove)).filterMap
          (fun c => getEdge c.cid)).filter
            (fun e => e.etype = EdgeKind.dependencyEdge)).filterMap
              (fun e => e.dataDependency.map (fun d => d.id)) = []
    rw [hE]
    rfl

/-- Zipping a list with itself pairs every element with itself. -/
theorem zip_self_eq_map {α : Type} (l : List α) :
    l.zip l = l.map (fun x => (x, x)) := by
  induction l with
  | nil => rfl
  | cons a t ih => simp [ih]

/-- Characterization of the parent-area update batch as one filterMap
over the visible tables. -/
theorem checkParentAreas_updates_eq (tableBounds : DBTable → Rect)
    (nodes : List CanvasNode) :
    (checkParentAreas tableBounds nodes).updates =
      (visibleTableData nodes).filterMap
        (fun t =>
          if ((resolveParentArea tableBounds (visibleAreaData nodes)
                  t).isSome ||
                t.parentAreaId.isSome) &&
              resolveParentArea tableBounds (visibleAreaData nodes) t ≠
                t.parentAreaId
          then some
            (t.id, resolveParentArea tableBounds (visibleAreaData nodes) t)
          else none) := by
  unfold checkParentAreas updateTablesParentAreas
  dsimp only
  rw [List.zip_map_left, zip_self_eq_map, List.map_map, List.filterMap_map]
  rfl

/-- C8: the parent-area reassignment commits one batch excluded from undo
history; every update in the batch belongs to a visible table whose
resolved parent differs from the stored one and carries the resolved
parent; every visible table whose resolved parent changed is in the
batch; and the resolved parent is the id of a containing visible area,
or none exactly when no visible area contains the table bounds. -/
theorem checkParentAreas_spec (tableBounds : DBTable → Rect)
    (nodes : List CanvasNode) :
    (checkParentAreas tableBounds nodes).updateHistory = false ∧
    (∀ u ∈ (checkParentAreas tableBounds nodes).updates,
      ∃ t ∈ visibleTableData nodes,
        u.1 = t.id ∧
        u.2 = resolveParentArea tableBounds (visibleAreaData nodes) t ∧
        u.2 ≠ t.parentAreaId) ∧
    (∀ t ∈ visibleTableData nodes,
      resolveParentArea tableBounds (visibleAreaData nodes) t ≠
          t.parentAreaId →
        (t.id, resolveParentArea tableBounds (visibleAreaData nodes) t) ∈
          (checkParentAreas tableBounds nodes).updates) ∧
    (∀ t : DBTable,
      (resolveParentArea tableBounds (visibleAreaData nodes) t = none ↔
        ∀ a ∈ visibleAreaData nodes,
          rectContains (areaRect a) (tableBounds t) = false) ∧
      (∀ aid,
        resolveParentArea tableBounds (visibleAreaData nodes) t =
            some aid →
          ∃ a ∈ visibleAreaData nodes,
            a.id = aid ∧ rectContains (areaRect a) (tableBounds t) = true)) := by
  refine ⟨rfl, ?_, ?_, ?_⟩
  · intro u hu
    rw [checkParentAreas_updates_eq, List.mem_filterMap] at hu
    obtain ⟨t, ht, hif⟩ := hu
    refine ⟨t, ht, ?_⟩
    split at hif
    case isTrue hcond =>
      have hu := Option.some.inj hif
      rw [Bool.and_eq_true] at hcond
      have hne := of_decide_eq_true hcond.2
      rw [← hu]
      exact ⟨rfl, rfl, hne⟩
    case isFalse hcond => exact absurd hif (by simp)
  · intro t ht hne
    rw [checkParentAreas_updates_eq, List.mem_filterMap]
    refine ⟨t, ht, ?_⟩
    have hsome :
        ((resolveParentArea tableBounds (visibleAreaData nodes) t).isSome ||
          t.parentAreaId.isSome) = true := by
      cases hr : resolveParentArea tableBounds (visibleAreaData nodes) t with
      | some v => simp
      | none =>
        cases hp : t.parentAreaId with
        | some v => simp
        | none => exact absurd (hr.trans hp.symm) hne
    have hc :
        (((resolveParentArea tableBounds (visibleAreaData nodes)
              t).isSome ||
            t.parentAreaId.isSome) &&
          decide
            (resolveParentArea tableBounds (visibleAreaData nodes) t ≠
              t.parentAreaId)) = true := by
      rw [Bool.and_eq_true]
      exact ⟨hsome, decide_eq_true hne⟩
    rw [if_pos hc]
  · intro t
    constructor
    · unfold resolveParentArea
      rw [Option.map_eq_none', List.find?_eq_none]
      constructor
      · intro h a ha
        simpa using h a ha
      · intro h a ha
        simp [h a ha]
    · intro aid h
      unfold resolveParentArea at h
      rw [Option.map_eq_some'] at h
      obtain ⟨a, hfind, hid⟩ := h
      have hp := List.find?_some hfind
      exact ⟨a, List.mem_of_find?_eq_some hfind, hid, hp⟩

/-- Concrete table for the C8 witness. -/
def c8Table : DBTable :=
  { id := "t1", schema := none, x := 1, y := 1, width := none, fields := []
    isView := false, parentAreaId := none }

/-- Concrete area for the C8 witness. -/
def c8Area : Area := { id := "a1", x := 0, y := 0, width := 100, height := 100 }

/-- Concrete visible node list for the C8 witness: one table node sitting
inside one area node. -/
def c8Nodes : List CanvasNode :=
  [{ id := "t1", ntype := NodeKind.table, position := (1, 1)
     measuredWidth := none, measuredHeight := none, hidden := false
     dataTable := some c8Table, dataArea := none },
   { id := "a1", ntype := NodeKind.area, position := (0, 0)
     measuredWidth := none, measuredHeight := none, hidden := false
     dataTable := none, dataArea := some c8Area }]

/-- Concrete rendered bounds for the C8 witness. -/
def c8Bounds : DBTable → Rect := fun t => { x := t.x, y := t.y, w := 10, h := 10 }

/-- C8 witness: the table fully inside the area receives the update
assigning that area as its parent, via the main theorem at the concrete
instance. -/
theorem checkParentAreas_spec_witness :
    ("t1", some "a1") ∈ (checkParentAreas c8Bounds c8Nodes).updates := by
  have h := checkParentAreas_spec c8Bounds c8Nodes
  have h3 := h.2.2.1 c8Table (by decide) (by decide)
  have he :
      resolveParentArea c8Bounds (visibleAreaData c8Nodes) c8Table =
        some "a1" := by decide
  rw [he] at h3
  exact h3

/-- Scheduler invariant: while every further mutation arrives within the
debounce window, no write is issued and the single pending timer always
holds the latest snapshot with a full window ahead. -/
theorem schedRun_inv (ms : List (Nat × DomainState)) :
    ∀ (s : SchedulerState) (snap : DomainState),
      s.pending = some (s.now + SAVE_DEBOUNCE_MS, snap) →
      (∀ m ∈ ms, m.1 < SAVE_DEBOUNCE_MS) →
      (schedRun s ms).writes = s.writes ∧
      (schedRun s ms).pending =
        some ((schedRun s ms).now + SAVE_DEBOUNCE_MS,
          (ms.map Prod.snd).getLastD snap) := by
  induction ms with
  | nil =>
    intro s snap hp _
    exact ⟨rfl, by simpa using hp⟩
  | cons m tl ih =>
    intro s snap hp hms
    obtain ⟨dt, d⟩ := m
    have hdt : dt < SAVE_DEBOUNCE_MS := hms (dt, d) (List.mem_cons_self _ _)
    have hs' : schedMutate s dt d =
        { now := s.now + dt
          pending := some (s.now + dt + SAVE_DEBOUNCE_MS, d)
          writes := s.writes } := by
      unfold schedMutate schedAdvance
      rw [hp]
      have hlt : ¬s.now + SAVE_DEBOUNCE_MS ≤ s.now + dt := by omega
      dsimp only
      rw [if_neg hlt]
    have hrun : schedRun s ((dt, d) :: tl) =
        schedRun (schedMutate s dt d) tl := rfl
    rw [hrun, hs']
    have ih' :=
      ih
        { now := s.now + dt
          pending := some (s.now + dt + SAVE_DEBOUNCE_MS, d)
          writes := s.writes }
        d rfl (fun m hm => hms m (List.mem_cons_of_mem _ hm))
    rw [List.map_cons, List.getLastD_cons]
    exact ih'

/-- A full window of quiet time fires the pending timer: the captured
snapshot is written once and the timer is cleared. -/
theorem schedAdvance_fire (s : SchedulerState) (dl : Nat)
    (snap : DomainState) (h : s.pending = some (dl, snap))
    (hle : dl ≤ s.now + SAVE_DEBOUNCE_MS) :
    schedAdvance s SAVE_DEBOUNCE_MS =
      { now := s.now + SAVE_DEBOUNCE_MS
        pending := none
        writes := s.writes ++ [snap] } := by
  unfold schedAdvance
  rw [h]
  dsimp only
  rw [if_pos hle]

/-- C6: starting with no pending timer, a first qualifying mutation and
any further mutations each arriving within the 500 ms window, followed
by a quiet window, produce exactly one write whose snapshot is the state
after the last mutation; the single resulting payload is built from that
final state, with every table, area and note position pulled from the
rendered nodes. -/
theorem saveScheduler_coalesces (t0 : Nat) (first : Nat × DomainState)
    (rest : List (Nat × DomainState))
    (hrest : ∀ m ∈ rest, m.1 < SAVE_DEBOUNCE_MS)
    (diagramId diagramName : String)
    (getNode : String → Option CanvasNode) :
    (schedAdvance
        (schedRun
          (schedMutate { now := t0, pending := none, writes := [] }
            first.1 first.2)
          rest)
        SAVE_DEBOUNCE_MS).writes =
      [(rest.map Prod.snd).getLastD first.2] ∧
    (schedAdvance
        (schedRun
          (schedMutate { now := t0, pending := none, writes := [] }
            first.1 first.2)
          rest)
        SAVE_DEBOUNCE_MS).pending = none ∧
    ((schedAdvance
        (schedRun
          (schedMutate { now := t0, pending := none, writes := [] }
            first.1 first.2)
          rest)
        SAVE_DEBOUNCE_MS).writes.map
      (buildDiagramToSave diagramId diagramName getNode)) =
      [buildDiagramToSave diagramId diagramName getNode
        ((rest.map Prod.snd).getLastD first.2)] ∧
    (∀ d : DomainState,
      (buildDiagramToSave diagramId diagramName getNode d).content.tables =
        syncTablePositions getNode d.tables ∧
      (buildDiagramToSave diagramId diagramName getNode d).content.areas =
        syncAreaPositions getNode d.areas ∧
      (buildDiagramToSave diagramId diagramName getNode d).content.notes =
        syncNotePositions getNode d.notes) := by
  have hstart :
      schedMutate { now := t0, pending := none, writes := [] }
          first.1 first.2 =
        { now := t0 + first.1
          pending := some (t0 + first.1 + SAVE_DEBOUNCE_MS, first.2)
          writes := [] } := rfl
  have hinv :=
    schedRun_inv rest
      (schedMutate { now := t0, pending := none, writes := [] }
        first.1 first.2)
      first.2 (by rw [hstart]) hrest
  obtain ⟨hw, hpend⟩ := hinv
  have hwnil :
      (schedRun
        (schedMutate { now := t0, pending := none, writes := [] }
          first.1 first.2)
        rest).writes = [] := by
    rw [hw, hstart]
  have hfire :=
    schedAdvance_fire
      (schedRun
        (schedMutate { now := t0, pending := none, writes := [] }
          first.1 first.2)
        rest)
      _ _ hpend (Nat.le_refl _)
  rw [hfire]
  refine ⟨?_, rfl, ?_, fun d => ⟨rfl, rfl, rfl⟩⟩
  · rw [hwnil]
    rfl
  · rw [hwnil]
    rfl

/-- First concrete domain snapshot for the C6 witness. -/
def c6D1 : DomainState :=
  { tables := [], areas := [], notes := [], relationships := []
    dependencies := [], customTypes := [] }

/-- Second concrete domain snapshot for the C6 witness. -/
def c6D2 : DomainState :=
  { tables := [], areas := [], notes := [], relationships := []
    dependencies := [], customTypes := ["wrapped"] }

/-- C6 witness: two rapid mutations 100 ms apart followed by a quiet
window issue exactly one write holding the second snapshot. -/
theorem saveScheduler_coalesces_witness :
    (schedAdvance
        (schedRun
          (schedMutate { now := 0, pending := none, writes := [] } 0 c6D1)
          [(100, c6D2)])
        SAVE_DEBOUNCE_MS).writes = [c6D2] := by
  have h :=
    saveScheduler_coalesces 0 (0, c6D1) [(100, c6D2)] (by decide)
      "d" "n" (fun _ => none)
  exact h.1

/-- Under distinct previous ids, the last-match lookup of the previous
edge map finds exactly the previous edge with the given id. -/
theorem reverse_find_of_nodup (l : List Edge)
    (h : (l.map (fun e => e.id)).Nodup) (p : Edge) (hp : p ∈ l) :
    l.reverse.find? (fun e => e.id == p.id) = some p := by
  induction l with
  | nil => cases hp
  | cons a t ih =>
    rw [List.map_cons, List.nodup_cons] at h
    rw [List.reverse_cons, List.find?_append]
    rcases List.mem_cons.mp hp with rfl | hpt
    · have hnone : t.reverse.find? (fun e => e.id == p.id) = none := by
        rw [List.find?_eq_none]
        intro x hx hbeq
        rw [List.mem_reverse] at hx
        have hxid : x.id = p.id := by simpa using hbeq
        exact h.1 (hxid ▸ List.mem_map_of_mem (fun e => e.id) hx)
      rw [hnone]
      simp [List.find?]
    · have hfind := ih h.2 hpt
      rw [hfind]
      rfl

/-- Every edge produced by the relationship half of the regeneration
carries the previous selection and animation of its id, defaulting to
false. -/
theorem relationshipEdgesAux_mem (hs : HandleIds) (prev : List Edge)
    (rels : List Relationship) :
    ∀ (cnt : String → Nat) (e : Edge),
      e ∈ relationshipEdgesAux hs prev rels cnt →
      e.selected = ((prevEdgeState prev e.id).map Prod.fst).getD false ∧
      e.animated = ((prevEdgeState prev e.id).map Prod.snd).getD false := by
  induction rels with
  | nil =>
    intro cnt e he
    simp [relationshipEdgesAux] at he
  | cons r rest ih =>
    intro cnt e he
    simp only [relationshipEdgesAux] at he
    rcases List.mem_cons.mp he with rfl | htail
    · exact ⟨rfl, rfl⟩
    · exact ih _ e htail

/-- Every edge produced by the dependency half of the regeneration
carries the previous selection and animation of its id, defaulting to
false. -/
theorem dependencyEdgesAux_mem (hs : HandleIds) (showDBViews : Bool)
    (prev : List Edge) (deps : List Dependency) :
    ∀ (cnt : String → Nat) (e : Edge),
      e ∈ dependencyEdgesAux hs showDBViews prev deps cnt →
      e.selected = ((prevEdgeState prev e.id).map Prod.fst).getD false ∧
      e.animated = ((prevEdgeState prev e.id).map Prod.snd).getD false := by
  induction deps with
  | nil =>
    intro cnt e he
    simp [dependencyEdgesAux] at he
  | cons d rest ih =>
    intro cnt e he
    simp only [dependencyEdgesAux] at he
    rcases List.mem_cons.mp he with rfl | htail
    · exact ⟨rfl, rfl⟩
    · exact ih _ e htail

/-- C2: when the ids of the previous edge list are distinct, every
regenerated edge whose id matches a previous edge keeps that previous
selected and animated flags of that previous edge, and every regenerated edge whose id
has no previous entry gets selected and animated false. -/
theorem regenerateEdges_preserves_selection (hs : HandleIds)
    (showDBViews : Bool) (relationships : List Relationship)
    (dependencies : List Dependency) (prevEdges : List Edge)
    (hnd : (prevEdges.map (fun e => e.id)).Nodup) :
    ∀ e ∈ regenerateEdges hs showDBViews relationships dependencies
        prevEdges,
      (∀ p ∈ prevEdges, p.id = e.id →
        e.selected = p.selected ∧ e.animated = p.animated) ∧
      ((∀ p ∈ prevEdges, p.id ≠ e.id) →
        e.selected = false ∧ e.animated = false) := by
  intro e he
  have hsel :
      e.selected = ((prevEdgeState prevEdges e.id).map Prod.fst).getD false ∧
      e.animated = ((prevEdgeState prevEdges e.id).map Prod.snd).getD false := by
    unfold regenerateEdges at he
    rcases List.mem_append.mp he with h | h
    · exact relationshipEdgesAux_mem hs prevEdges relationships _ e h
    · exact dependencyEdgesAux_mem hs showDBViews prevEdges dependencies _ e h
  constructor
  · intro p hp hid
    have hfind := reverse_find_of_nodup prevEdges hnd p hp
    have hstate : prevEdgeState prevEdges e.id = some (p.selected, p.animated) := by
      unfold prevEdgeState
      rw [← hid, hfind]
      rfl
    rw [hsel.1, hsel.2, hstate]
    exact ⟨rfl, rfl⟩
  · intro hnone
    have hstate : prevEdgeState prevEdges e.id = none := by
      unfold prevEdgeState
      rw [Option.map_eq_none', List.find?_eq_none]
      intro x hx hbeq
      rw [List.mem_reverse] at hx
      exact hnone x hx (by simpa using hbeq)
    rw [hsel.1, hsel.2, hstate]
    exact ⟨rfl, rfl⟩

/-- Concrete handle ids for the C2 witness. -/
def c2Hs : HandleIds :=
  { leftHandle := "L_", targetMark := "T_", topSourceHandle := "TOP_"
    bottomSourceHandle := "BOT_", targetDep := "D_" }

/-- Concrete previous edge for the C2 witness, selected and animated. -/
def c2Prev : Edge :=
  { id := "r1", source := "x", target := "y", sourceHandle := none
    targetHandle := none, etype := EdgeKind.relationshipEdge
    dataRelationship := none, dataDependency := none
    dataHighlighted := none, hidden := none, selected := true
    animated := true, zIndex := none }

/-- Concrete relationship for the C2 witness, sharing the previous id. -/
def c2Rel : Relationship :=
  { id := "r1", sourceTableId := "t1", targetTableId := "t2"
    sourceFieldId := "f1", targetFieldId := "f2" }

/-- Head of the regenerated edge list for the C2 witness. -/
def c2OutEdge : Edge :=
  (regenerateEdges c2Hs true [c2Rel] [] [c2Prev]).headD c2Prev

/-- C2 witness: the regenerated edge keeps the previous selected and
animated flags at the concrete instance, via the main theorem. -/
theorem regenerateEdges_preserves_selection_witness :
    c2OutEdge.selected = true ∧ c2OutEdge.animated = true := by
  have h :=
    regenerateEdges_preserves_selection c2Hs true [c2Rel] [] [c2Prev]
      (by decide)
  have h2 := h c2OutEdge (by decide)
  have h3 := h2.1 c2Prev (by decide) (by decide)
  exact ⟨h3.1.trans rfl, h3.2.trans rfl⟩

/-- Field preservation and field values of the highlight update. -/
theorem applyHighlight_props (selR selT : List String) (e : Edge) :
    (applyHighlight selR selT e).id = e.id ∧
    (applyHighlight selR selT e).source = e.source ∧
    (applyHighlight selR selT e).target = e.target ∧
    (applyHighlight selR selT e).etype = e.etype ∧
    (applyHighlight selR selT e).dataHighlighted =
      some (shouldBeHighlighted selR selT e) ∧
    (applyHighlight selR selT e).animated = shouldBeHighlighted selR selT e ∧
    (applyHighlight selR selT e).zIndex =
      some
        (if shouldBeHighlighted selR selT e then HIGHLIGHTED_EDGE_Z_INDEX
          else DEFAULT_EDGE_Z_INDEX) := by
  unfold applyHighlight
  split <;> exact ⟨rfl, rfl, rfl, rfl, rfl, rfl, rfl⟩

/-- The highlight condition is invariant under the highlight update. -/
theorem shouldBe_applyHighlight (selR selT : List String) (e : Edge) :
    shouldBeHighlighted selR selT (applyHighlight selR selT e) =
      shouldBeHighlighted selR selT e := by
  have h := applyHighlight_props selR selT e
  unfold shouldBeHighlighted
  rw [h.1, h.2.1, h.2.2.1]

/-- The three target equalities, read off the skip condition. -/
theorem unchanged_props (selR selT : List String) (e : Edge)
    (h : highlightUnchanged selR selT e = true) :
    e.dataHighlighted.getD false = shouldBeHighlighted selR selT e ∧
    e.animated = shouldBeHighlighted selR selT e ∧
    e.zIndex.getD 0 =
      (if shouldBeHighlighted selR selT e then HIGHLIGHTED_EDGE_Z_INDEX
        else DEFAULT_EDGE_Z_INDEX) := by
  unfold highlightUnchanged at h
  rw [Bool.and_eq_true, Bool.and_eq_true] at h
  obtain ⟨⟨ha, hb⟩, hc⟩ := h
  exact ⟨by simpa using ha, by simpa using hb, by simpa using hc⟩

/-- The claim property follows from the three target equalities. -/
theorem highlight_target_prop (selT selR : List String) (e : Edge)
    (h1 : e.dataHighlighted.getD false = shouldBeHighlighted selR selT e)
    (h2 : e.animated = shouldBeHighlighted selR selT e)
    (h3 : e.zIndex.getD 0 =
      (if shouldBeHighlighted selR selT e then HIGHLIGHTED_EDGE_Z_INDEX
        else DEFAULT_EDGE_Z_INDEX)) :
    ((e.dataHighlighted.getD false = true) ↔
      (e.id ∈ selR ∨ e.source ∈ selT ∨ e.target ∈ selT)) ∧
    e.animated = e.dataHighlighted.getD false ∧
    e.zIndex.getD 0 =
      (if e.dataHighlighted.getD false then HIGHLIGHTED_EDGE_Z_INDEX
        else DEFAULT_EDGE_Z_INDEX) := by
  refine ⟨?_, by rw [h1, h2], by rw [h1, h3]⟩
  rw [h1]
  unfold shouldBeHighlighted
  simp [List.contains, List.elem_iff, or_assoc]

/-- C3: every non-temporary edge of the recomputed list is highlighted
iff its id is a selected relationship id or an endpoint table id is a
selected node id, its animated flag equals its highlighted flag and its
z-order is the raised constant exactly when highlighted (the base
constant otherwise); and when every non-temporary previous edge already
satisfies the skip condition, the recomputation returns the previous
edge list itself. -/
theorem recomputeHighlights_spec
    (selectedTableIds selectedRelationshipIds : List String)
    (prevEdges : List Edge) :
    (∀ e ∈ recomputeHighlights selectedTableIds selectedRelationshipIds
        prevEdges,
      e.etype ≠ EdgeKind.tempFloatingEdge →
        ((e.dataHighlighted.getD false = true) ↔
          (e.id ∈ selectedRelationshipIds ∨
            e.source ∈ selectedTableIds ∨ e.target ∈ selectedTableIds)) ∧
        e.animated = e.dataHighlighted.getD false ∧
        e.zIndex.getD 0 =
          (if e.dataHighlighted.getD false then HIGHLIGHTED_EDGE_Z_INDEX
            else DEFAULT_EDGE_Z_INDEX)) ∧
    ((∀ e ∈ prevEdges, e.etype ≠ EdgeKind.tempFloatingEdge →
        highlightUnchanged selectedRelationshipIds selectedTableIds e =
          true) →
      recomputeHighlights selectedTableIds selectedRelationshipIds
          prevEdges = prevEdges) := by
  constructor
  · intro e he hne
    unfold recomputeHighlights at he
    dsimp only at he
    split at he
    case isTrue hch =>
      rw [List.mem_map] at he
      obtain ⟨a, ha, heq⟩ := he
      by_cases hu :
          highlightUnchanged selectedRelationshipIds selectedTableIds a =
            true
      · rw [if_pos hu] at heq
        subst heq
        exact
          highlight_target_prop selectedTableIds selectedRelationshipIds a
            (unchanged_props _ _ a hu).1 (unchanged_props _ _ a hu).2.1
            (unchanged_props _ _ a hu).2.2
      · rw [if_neg hu] at heq
        subst heq
        have hp := applyHighlight_props selectedRelationshipIds
          selectedTableIds a
        have hsb := shouldBe_applyHighlight selectedRelationshipIds
          selectedTableIds a
        refine
          highlight_target_prop selectedTableIds selectedRelationshipIds _
            ?_ ?_ ?_
        · rw [hp.2.2.2.2.1, hsb]
          rfl
        · rw [hp.2.2.2.2.2.1, hsb]
        · rw [hp.2.2.2.2.2.2, hsb]
          rfl
    case isFalse hch =>
      have hany :
          (prevEdges.filter
              (fun e => e.etype ≠ EdgeKind.tempFloatingEdge)).any
            (fun e =>
              !highlightUnchanged selectedRelationshipIds
                selectedTableIds e) = false :=
        Bool.eq_false_iff.mpr hch
      have hu :
          highlightUnchanged selectedRelationshipIds selectedTableIds e =
            true := by
        have hmem : e ∈ prevEdges.filter
            (fun e => e.etype ≠ EdgeKind.tempFloatingEdge) :=
          List.mem_filter.mpr ⟨he, by simpa using hne⟩
        have := List.any_eq_false.mp hany e hmem
        simpa using this
      exact
        highlight_target_prop selectedTableIds selectedRelationshipIds e
          (unchanged_props _ _ e hu).1 (unchanged_props _ _ e hu).2.1
          (unchanged_props _ _ e hu).2.2
  · intro hall
    unfold recomputeHighlights
    have hfalse :
        (prevEdges.filter
            (fun e => e.etype ≠ EdgeKind.tempFloatingEdge)).any
          (fun e =>
            !highlightUnchanged selectedRelationshipIds selectedTableIds
              e) = false := by
      rw [List.any_eq_false]
      intro x hx
      rw [List.mem_filter] at hx
      have hu := hall x hx.1 (by simpa using hx.2)
      simp [hu]
    rw [if_neg (fun hcontra => Bool.false_ne_true (hfalse ▸ hcontra))]

/-- Concrete previous edge for the C3 witness: not yet highlighted while
its source table is selected. -/
def c3PrevEdge : Edge :=
  { id := "r9", source := "t1", target := "t5", sourceHandle := none
    targetHandle := none, etype := EdgeKind.relationshipEdge
    dataRelationship := none, dataDependency := none
    dataHighlighted := none, hidden := none, selected := false
    animated := false, zIndex := none }

/-- Head of the recomputed edge list for the C3 witness. -/
def c3OutEdge : Edge :=
  (recomputeHighlights ["t1"] [] [c3PrevEdge]).headD c3PrevEdge

/-- C3 witness: the recomputed edge of the concrete instance satisfies
the highlight property, via the main theorem. -/
theorem recomputeHighlights_spec_witness :
    ((c3OutEdge.dataHighlighted.getD false = true) ↔
      (c3OutEdge.id ∈ ([] : List String) ∨
        c3OutEdge.source ∈ (["t1"] : List String) ∨
        c3OutEdge.target ∈ (["t1"] : List String))) ∧
    c3OutEdge.animated = c3OutEdge.dataHighlighted.getD false ∧
    c3OutEdge.zIndex.getD 0 =
      (if c3OutEdge.dataHighlighted.getD false then
        HIGHLIGHTED_EDGE_Z_INDEX
      else DEFAULT_EDGE_Z_INDEX) := by
  have h := recomputeHighlights_spec ["t1"] [] [c3PrevEdge]
  exact h.1 c3OutEdge (by decide) (by decide)
